import Mathlib

/-!
Verification of the authorization, role-derivation and audience-filtering
logic of `src/連絡帳.py` (a Streamlit contact-book application).

The Python program keeps all tabular data as spreadsheet rows; identities,
audiences and visibility decisions are computed with plain string operations
(`split(',')`, `strip()`, membership tests) over those rows.  This file embeds
those computations as executable Lean definitions, translated line by line
from the source, and proves the specified properties about them.
-/

namespace Renraku

/-! ## Python string primitives

The source manipulates class-tag fields with `str.split(',')` and
`str.strip()`.  We embed the Python semantics of these two operations over
the character list of a string (ASCII whitespace model for `strip`). -/

/-- ASCII whitespace, as stripped by Python `str.strip()`. -/
def isSpaceChar (c : Char) : Bool :=
  c = ' ' || c = '\t' || c = '\n' || c = '\r'

/-- Python `str.strip()` on a character list: drop whitespace at both ends. -/
def stripChars (l : List Char) : List Char :=
  ((l.dropWhile isSpaceChar).reverse.dropWhile isSpaceChar).reverse

/-- Python `str.strip()`. -/
def pyStrip (s : String) : String :=
  ⟨stripChars s.data⟩

/-- Python `s.split(',')` on a character list: split at every comma, keeping
empty pieces; `''.split(',') = ['']`. -/
def splitCommaChars : List Char → List (List Char)
  | [] => [[]]
  | c :: cs =>
    match splitCommaChars cs with
    | [] => [[c]]
    | p :: ps => if c = ',' then [] :: p :: ps else (c :: p) :: ps

/-- Python `s.split(',')`. -/
def pySplitComma (s : String) : List String :=
  (splitCommaChars s.data).map (fun cs => ⟨cs⟩)

/-! ## Data model

Rows of the `students` sheet and `teachers` sheet, and contact-message rows
of a per-student individual sheet, as read by `get_all_records()`. -/

/-- A row of the student roster sheet (`students`): the columns the program
reads are `student_name`, `individual_sheet_name`, the class column
(`STUDENT_CLASS_COLUMN`) and `parent_email`. -/
structure Student where
  student_name : String
  individual_sheet_name : String
  class_name : String
  parent_email : String
deriving DecidableEq, Repr

/-- A row of the teacher roster sheet (`teachers`): the program reads `email`
and the class column (`TEACHER_CLASS_COLUMN`).  `class_field = none` models
the class column being absent from the sheet (line 300 `if TEACHER_CLASS_COLUMN
in teacher_row`). -/
structure Teacher where
  email : String
  class_field : Option String
deriving DecidableEq, Repr

/-- The projection of a student row stored in
`st.session_state.associated_students_data` (lines 316-325, 335-337):
`student_name`, `individual_sheet_name` and the class column. -/
structure AssociatedStudent where
  student_name : String
  individual_sheet_name : String
  class_name : String
deriving DecidableEq, Repr

/-- The `to_dict(orient='records')` projection of a student row. -/
def toAssociated (s : Student) : AssociatedStudent :=
  ⟨s.student_name, s.individual_sheet_name, s.class_name⟩

/-! ## Identity Directory / Audience Resolver
(`authenticate_google_oauth`, lines 294-350) -/

/-- Lines 303-304: the teacher's class field split on commas, each piece
stripped, empty pieces dropped:
`[c.strip() for c in str(field).split(',') if c.strip()]`. -/
def parseClasses (s : String) : List String :=
  ((pySplitComma s).map pyStrip).filter (fun c => c ≠ "")

/-- Line 309: `students_df[STUDENT_CLASS_COLUMN].dropna().unique().tolist()`,
the distinct class tags present in the student roster. -/
def rosterClasses (students : List Student) : List String :=
  (students.map Student.class_name).dedup

/-- Lines 300-310: `st.session_state.teacher_classes`.  When the class column
is present its value is parsed with `parseClasses`; when the column is missing
the full list of roster classes is used. -/
def teacherClasses (class_field : Option String) (students : List Student) :
    List String :=
  match class_field with
  | some s => parseClasses s
  | none => rosterClasses students

/-- Lines 313-325: `st.session_state.associated_students_data` for a teacher.
An empty `teacher_classes` list is treated as all-access (line 315
`if not st.session_state.teacher_classes`): every student is kept; otherwise
students are filtered by `isin(teacher_classes)` on the class column. -/
def associatedStudentsTeacher (classes : List String) (students : List Student) :
    List AssociatedStudent :=
  if classes.isEmpty then students.map toAssociated
  else (students.filter (fun s => classes.contains s.class_name)).map toAssociated

/-- Outcome of resolving a signed-in email against the two rosters
(lines 294-350).  `unregistered` is the terminal error at lines 347-350;
`noLinkedStudent` is the terminal error at lines 343-346. -/
inductive ResolveOutcome where
  | teacher (classes : List String) (assoc : List AssociatedStudent)
  | parent (assoc : List AssociatedStudent)
  | noLinkedStudent
  | unregistered
deriving DecidableEq, Repr

/-- Whether a resolution outcome carries the teacher role
(`st.session_state.user_role == 'teacher'`, set at line 297). -/
def isTeacherOutcome : ResolveOutcome → Bool
  | ResolveOutcome.teacher _ _ => true
  | _ => false

/-- Lines 294-350: role derivation.  The teacher roster's `email` column is
checked first (line 296); only if no teacher row matches is the student
roster's `parent_email` column consulted (line 332); with no match in either,
the sign-in fails as unregistered (lines 347-350). -/
def resolve (email : String) (teachers : List Teacher) (students : List Student) :
    ResolveOutcome :=
  match teachers.find? (fun t => t.email == email) with
  | some t =>
    let classes := teacherClasses t.class_field students
    ResolveOutcome.teacher classes (associatedStudentsTeacher classes students)
  | none =>
    if students.any (fun s => s.parent_email == email) then
      let assoc := (students.filter (fun s => s.parent_email == email)).map toAssociated
      if assoc.isEmpty then ResolveOutcome.noLinkedStudent
      else ResolveOutcome.parent assoc
    else ResolveOutcome.unregistered

/-! ## Calendar visibility filter (lines 708-712 teacher, 1042-1046 parent)

`target_classes` of a calendar event is stored as one comma-joined string
(line 786 `", ".join(selected_target_classes)`); `NaN` cells are replaced by
`''` with `fillna('')` before filtering. -/

/-- `[c.strip() for c in x.split(',')]`: the trimmed comma-separated pieces of
a `target_classes` cell. -/
def trimmedParts (x : String) : List String :=
  (pySplitComma x).map pyStrip

/-- Lines 708-712, the teacher-side event filter:
`not x or "全体" in parts or any(tc in parts for tc in teacher_classes)`. -/
def keepEventTeacher (x : String) (teacher_classes : List String) : Bool :=
  x == "" || (trimmedParts x).contains "全体"
    || teacher_classes.any (fun tc => (trimmedParts x).contains tc)

/-- Lines 1042-1046, the parent-side event filter:
`not x or "全体" in parts or (selected_student_class and selected_student_class
in parts)` — Python truthiness makes the last disjunct false for an empty
class string. -/
def keepEventParent (x : String) (selected_student_class : String) : Bool :=
  x == "" || (trimmedParts x).contains "全体"
    || (selected_student_class != "" && (trimmedParts x).contains selected_student_class)

/-- The §4.3 visibility rule for calendar events, stated from the spec's
words for comparison with the code's filter: keep if `target_classes` is
empty, or contains the sentinel `"全体"` (`"ALL"`), or intersects the
viewer's reachable classes (tags compared exactly after trimming). -/
def specKeepEvent (x : String) (reachable : List String) : Prop :=
  x = "" ∨ "全体" ∈ trimmedParts x ∨ ∃ c ∈ reachable, c ∈ trimmedParts x

/-! ## Contact messages and their rendering -/

/-- A row of a per-student individual contact sheet, with the columns written
at send time (lines 483-493).  `timestamp` is modelled as a `Nat` (rows carry
parseable timestamps; pandas orders them). -/
structure ContactMessage where
  timestamp : Nat
  date : String
  sender : String
  message : String
  home_reply : String
  items_notice : String
  remarks : String
  image_url : String
deriving DecidableEq, Repr

/-- Lines 920-935, the parent detail view of an individual message: the
labelled fields it renders.  Fields guarded by Python truthiness
(`if row['home_reply']:` etc.) appear only when non-empty; `remarks` is not
rendered at all in this branch. -/
def displayedFieldsParent (m : ContactMessage) : List (String × String) :=
  [("見出し", m.date ++ " - " ++ m.sender),
   ("送信日時", toString m.timestamp),
   ("学校からの連絡", m.message)]
  ++ (if m.home_reply ≠ "" then [("あなたの返信", m.home_reply)] else [])
  ++ (if m.items_notice ≠ "" then [("持ち物・特記事項", m.items_notice)] else [])
  ++ (if m.image_url ≠ "" then [("添付", m.image_url)] else [])

/-- Lines 613-630, the teacher detail view of an individual message: unlike
the parent view it additionally renders `remarks` (line 622-623) when
non-empty. -/
def displayedFieldsTeacher (m : ContactMessage) : List (String × String) :=
  [("見出し", m.date ++ " - " ++ m.sender),
   ("送信日時", toString m.timestamp),
   ("学校からの連絡", m.message)]
  ++ (if m.home_reply ≠ "" then [("家庭からの返信", m.home_reply)] else [])
  ++ (if m.items_notice ≠ "" then [("持ち物・特記事項", m.items_notice)] else [])
  ++ (if m.remarks ≠ "" then [("備考", m.remarks)] else [])
  ++ (if m.image_url ≠ "" then [("添付", m.image_url)] else [])

/-! ## Row update against a sheet (`update_row_in_sheet`, lines 151-176) -/

/-- One iteration of the update loop (lines 167-170): if `col_name` is a
header column, overwrite the cell of its first occurrence
(`header.index(col_name)`); otherwise do nothing. -/
def setCol (header row : List String) (col_name value : String) : List String :=
  if col_name ∈ header then row.set (header.indexOf col_name) value else row

/-- The full update loop of `update_row_in_sheet` over a `field_map`
(`for col_name, value in data_to_update.items()`). -/
def applyUpdates (header row : List String) (data_to_update : List (String × String)) :
    List String :=
  data_to_update.foldl (fun r kv => setCol header r kv.1 kv.2) row

/-- `update_row_in_sheet` (lines 151-176) on its non-exception path: applies
the update loop to the addressed row and returns `True` (line 172),
regardless of whether any key matched a header column. -/
def update_row_in_sheet (header row : List String)
    (data_to_update : List (String × String)) : List String × Bool :=
  (applyUpdates header row data_to_update, true)

/-! ## Teacher individual send (lines 442-502) -/

/-- Line 443: the target options offered to a teacher are `"全体"` plus the
names of the teacher's associated (in-audience) students. -/
def studentOptions (assoc : List AssociatedStudent) : List String :=
  "全体" :: assoc.map AssociatedStudent.student_name

/-- Lines 447-452: resolve a target name to its individual sheet name by
scanning the teacher's associated students. -/
def findSheetName (target : String) (assoc : List AssociatedStudent) :
    Option String :=
  (assoc.find? (fun a => a.student_name == target)).map
    AssociatedStudent.individual_sheet_name

/-- Outcome of the individual-send flow.  `forbidden` is the error demanded
by the specification; the code never produces it (no such error exists in
the source). -/
inductive SendOutcome where
  | written (sheet : String)
  | warnSelectZentai
  | errSheetNotFound
  | forbidden
deriving DecidableEq, Repr

/-- Lines 442-502, the individual-send control flow for a target name:
`"全体"` draws the warning at line 459; a name whose sheet is found leads to
`append_row_to_sheet` on that sheet (line 495); a name with no sheet among
the associated students surfaces the error at lines 453-454 / 501-502 and no
write happens. -/
def sendIndividual (target : String) (assoc : List AssociatedStudent) :
    SendOutcome :=
  if target == "全体" then SendOutcome.warnSelectZentai
  else
    match findSheetName target assoc with
    | some sheet => SendOutcome.written sheet
    | none => SendOutcome.errSheetNotFound

/-! ## Index search and in-place row update helpers

`df.index[mask].tolist()` followed by `[0]` picks the first row of the frame
satisfying the mask; both the parent-reply flow and the (commented-out)
read-toggle flow use it.  `updateAt` applies a single-row mutation at that
index, as `update_row_in_sheet` does on the sheet. -/

/-- Index of the first element satisfying `p`, like
`df.index[mask].tolist()[0]`. -/
def firstIdx? {α : Type} (p : α → Bool) : List α → Option Nat
  | [] => none
  | a :: l => if p a then some 0 else (firstIdx? p l).map (· + 1)

/-- Replace the element at an index by `f` of it, leaving the rest alone. -/
def updateAt {α : Type} (f : α → α) : List α → Nat → List α
  | [], _ => []
  | a :: l, 0 => f a :: l
  | a :: l, n + 1 => a :: updateAt f l n

/-! ## Parent reply (lines 964-1025) -/

/-- Line 973-975: the rows whose `home_reply` strips to the empty string
(`astype(str).str.strip() == ""`). -/
def unreplied (rows : List ContactMessage) : List ContactMessage :=
  rows.filter (fun r => pyStrip r.home_reply == "")

/-- One step of selecting the row of maximal timestamp: keep the later of
the accumulator and the next row (the earlier row wins a tie). -/
def pickLatestStep (acc : Option ContactMessage) (r : ContactMessage) :
    Option ContactMessage :=
  match acc with
  | none => some r
  | some m => if r.timestamp > m.timestamp then some r else acc

/-- Line 978: `reply_needed_df.sort_values(by="timestamp", ascending=False)
.iloc[0]` — the unreplied row of maximal timestamp (first such row in sheet
order when timestamps tie). -/
def latestUnreplied (rows : List ContactMessage) : Option ContactMessage :=
  (unreplied rows).foldl pickLatestStep none

/-- Lines 1006-1012: the row the reply is written to — the first row of the
frame whose `(timestamp, message)` pair equals that of `latest_unreplied`
(`original_row_index[0]`). -/
def replyTargetIdx (rows : List ContactMessage) : Option Nat :=
  match latestUnreplied rows with
  | none => none
  | some m =>
    firstIdx? (fun r => r.timestamp == m.timestamp && r.message == m.message) rows

/-- Lines 1013-1017: the reply's `field_map` — always `home_reply`, plus
`image_url` when a reply image was uploaded (Python truthiness on the URL). -/
def replyFieldMap (reply image_url_reply : String) : List (String × String) :=
  ("home_reply", reply)
    :: (if image_url_reply ≠ "" then [("image_url", image_url_reply)] else [])

/-- The effect of the reply's `field_map` on the addressed message row. -/
def applyReply (reply image_url_reply : String) (m : ContactMessage) :
    ContactMessage :=
  if image_url_reply ≠ "" then
    { m with home_reply := reply, image_url := image_url_reply }
  else
    { m with home_reply := reply }

/-- The whole reply flow at the row-list level: find the target index and
update that row in place; with no unreplied row (line 1026-1027) nothing is
written. -/
def parentReply (rows : List ContactMessage) (reply image_url_reply : String) :
    List ContactMessage :=
  match replyTargetIdx rows with
  | none => rows
  | some i => updateAt (applyReply reply image_url_reply) rows i

/-! ## Read-state toggle (lines 632-654 and 937-959)

The read-state feature was removed in this revision of the source: both
toggle handlers are commented out, and sends no longer write a `read_status`
column (line 492).  The definitions below embed the commented-out parent-side
handler at lines 944-959 verbatim, so that the claimed behaviour can be
checked against what that code does. -/

/-- A row as the commented-out read-toggle code reads it: the fields it
touches are `timestamp`, `message` (the lookup key, lines 945-948) and
`read_status`. -/
structure MessageWithRead where
  timestamp : Nat
  message : String
  read_status : String
deriving DecidableEq, Repr

/-- Outcome of the commented-out toggle handler.  `forbidden` is the error
demanded by the specification; no such error exists in the source. -/
inductive ToggleOutcome where
  | updated (rows : List MessageWithRead)
  | recordNotFound
  | forbidden
deriving DecidableEq, Repr

/-- Set `read_status` to `"既読"` (read) on one row, as
`update_row_in_sheet(..., {"read_status": "既読"})` does (line 952). -/
def setRead (rows : List MessageWithRead) (i : Nat) : List MessageWithRead :=
  updateAt (fun r => { r with read_status := "既読" }) rows i

/-- Lines 944-959 (commented out): look up the first row matching the clicked
row's `(timestamp, message)` pair and mark it read; with no matching row the
error `"更新対象の連絡が見つかりませんでした"` is surfaced (line 958-959) and
nothing is written. -/
def toggleRead (rows : List MessageWithRead) (ts : Nat) (msg : String) :
    ToggleOutcome :=
  match firstIdx? (fun r => r.timestamp == ts && r.message == msg) rows with
  | some i => ToggleOutcome.updated (setRead rows i)
  | none => ToggleOutcome.recordNotFound

/-- Lines 857-860: the menu offered to a parent.  No read-toggle entry
exists in this revision. -/
def parentMenuOptions : List String :=
  ["自分の連絡帳", "返信作成", "カレンダー"]

/-! ## Concrete instances used to evaluate the definitions -/

/-- A one-student roster whose only class is `"3-A"`. -/
def demoStudents : List Student :=
  [⟨"alice", "sheet_alice", "3-A", "pa@example.com"⟩]

/-- A two-class roster: alice in `"3-A"`, bob in `"3-B"`. -/
def demoRoster : List Student :=
  [⟨"alice", "sheet_alice", "3-A", "pa@example.com"⟩,
   ⟨"bob", "sheet_bob", "3-B", "pb@example.com"⟩]

/-- The associated students of a teacher whose class field is `"3-A"`,
resolved against `demoRoster`. -/
def demoTeacherAssoc : List AssociatedStudent :=
  associatedStudentsTeacher (parseClasses "3-A") demoRoster

/-- The teacher roster used for the resolution examples. -/
def demoTeachers : List Teacher :=
  [⟨"t@example.com", some "3-A"⟩]

/-- A concrete individual message carrying a non-empty internal remark. -/
def demoMessage : ContactMessage :=
  ⟨100, "2024/05/01", "t-sensei", "hello", "", "bag", "internal note", ""⟩

/-- A per-student log holding an already-replied row and an unreplied row
that share the same `(timestamp, message)` pair. -/
def demoLogDup : List ContactMessage :=
  [⟨5, "2024/05/01", "t-sensei", "hi", "done", "", "", ""⟩,
   ⟨5, "2024/05/01", "t-sensei", "hi", "", "", "", ""⟩]

/-- A per-student log with two unreplied rows of distinct timestamps. -/
def demoLogPlain : List ContactMessage :=
  [⟨3, "2024/05/01", "t-sensei", "first", "", "", "", ""⟩,
   ⟨7, "2024/05/02", "t-sensei", "second", "", "", "", ""⟩]

/-- The header row of an individual contact sheet, in the column order of the
record written at lines 483-493. -/
def contactHeader : List String :=
  ["timestamp", "date", "sender", "message", "home_reply",
   "items_notice", "remarks", "image_url"]

/-- A concrete sheet row under `contactHeader`, with an existing attachment
URL in the `image_url` column. -/
def demoSheetRow : List String :=
  ["t1", "2024/05/01", "t-sensei", "hello", "", "bag", "note", "old.png"]

/-- A one-row read-status log for student S (unread). -/
def demoReadLog : List MessageWithRead :=
  [⟨10, "hello", "未読"⟩]

/-- A teacher roster whose single email also occurs as a parent email. -/
def demoTeachersBoth : List Teacher :=
  [⟨"both@example.com", some "3-A"⟩]

/-- A student roster whose single parent email coincides with the email of
`demoTeachersBoth`. -/
def demoStudentsBoth : List Student :=
  [⟨"carol", "sheet_carol", "3-A", "both@example.com"⟩]

/-! ## Helper lemmas -/

lemma firstIdx?_eq_none {α : Type} (p : α → Bool) (l : List α) :
    firstIdx? p l = none ↔ ∀ a ∈ l, ¬ p a := by
  induction l with
  | nil => simp [firstIdx?]
  | cons a l ih =>
    by_cases hpa : p a
    · simp [firstIdx?, hpa]
    · simp [firstIdx?, hpa, ih]

lemma firstIdx?_some_spec {α : Type} (p : α → Bool) (l : List α) (i : Nat)
    (h : firstIdx? p l = some i) : ∃ a, l.get? i = some a ∧ p a := by
  induction l generalizing i with
  | nil => simp [firstIdx?] at h
  | cons a l ih =>
    by_cases hpa : p a
    · simp [firstIdx?, hpa] at h
      subst h
      exact ⟨a, rfl, hpa⟩
    · simp [firstIdx?, hpa] at h
      obtain ⟨j, hj, hij⟩ := h
      subst hij
      simpa [List.get?] using ih j hj

lemma firstIdx?_eq_some_of {α : Type} (p : α → Bool) (l : List α) (i : Nat)
    (a : α) (ha : l.get? i = some a) (hpa : p a = true)
    (hmin : ∀ j b, j < i → l.get? j = some b → ¬ p b) :
    firstIdx? p l = some i := by
  induction l generalizing i with
  | nil => simp at ha
  | cons x l ih =>
    cases i with
    | zero =>
      simp at ha
      subst ha
      simp [firstIdx?, hpa]
    | succ i =>
      have hx : ¬ p x := hmin 0 x (Nat.succ_pos i) rfl
      have hrec : firstIdx? p l = some i := by
        refine ih i (by simpa using ha) ?_
        intro j b hji hjb
        exact hmin (j + 1) b (Nat.succ_lt_succ hji) (by simpa using hjb)
      simp [firstIdx?, hx, hrec]

lemma updateAt_get?_ne {α : Type} (f : α → α) (l : List α) (i j : Nat)
    (h : j ≠ i) : (updateAt f l i).get? j = l.get? j := by
  induction l generalizing i j with
  | nil => simp [updateAt]
  | cons a l ih =>
    cases i with
    | zero =>
      cases j with
      | zero => exact absurd rfl h
      | succ j => simp [updateAt]
    | succ i =>
      cases j with
      | zero => simp [updateAt]
      | succ j =>
        simp only [updateAt, List.get?]
        exact ih i j (fun hji => h (by rw [hji]))

lemma updateAt_get?_self {α : Type} (f : α → α) (l : List α) (i : Nat) :
    (updateAt f l i).get? i = (l.get? i).map f := by
  induction l generalizing i with
  | nil => simp [updateAt]
  | cons a l ih =>
    cases i with
    | zero => simp [updateAt]
    | succ i => simpa [updateAt] using ih i

lemma setCol_get?_of_ne (header row : List String) (k v name : String)
    (i : Nat) (hi : header.get? i = some name) (hne : name ≠ k) :
    (setCol header row k v).get? i = row.get? i := by
  unfold setCol
  by_cases hk : k ∈ header
  · have hlt : header.indexOf k < header.length := List.indexOf_lt_length.mpr hk
    have hidx : header.get? (header.indexOf k) = some k := by
      rw [List.get?_eq_get hlt, List.indexOf_get]
    have hne' : header.indexOf k ≠ i := by
      intro hEq
      rw [hEq, hi] at hidx
      exact hne (Option.some.inj hidx)
    simp only [if_pos hk]
    exact List.get?_set_ne v row hne'
  · simp [hk]

lemma setCol_of_not_mem (header row : List String) (k v : String)
    (hk : k ∉ header) : setCol header row k v = row := by
  simp [setCol, hk]

lemma applyUpdates_get?_of_not_mem (header : List String)
    (updates : List (String × String)) (row : List String) (i : Nat)
    (name : String) (hi : header.get? i = some name)
    (hn : name ∉ updates.map Prod.fst) :
    (applyUpdates header row updates).get? i = row.get? i := by
  induction updates generalizing row with
  | nil => rfl
  | cons kv updates ih =>
    simp only [List.map_cons, List.mem_cons, not_or] at hn
    calc (applyUpdates header (setCol header row kv.1 kv.2) updates).get? i
        = (setCol header row kv.1 kv.2).get? i := ih _ hn.2
      _ = row.get? i := setCol_get?_of_ne header row kv.1 kv.2 name i hi hn.1

lemma applyUpdates_of_disjoint (header : List String)
    (updates : List (String × String)) (row : List String)
    (h : ∀ kv ∈ updates, kv.1 ∉ header) :
    applyUpdates header row updates = row := by
  induction updates generalizing row with
  | nil => rfl
  | cons kv updates ih =>
    have h1 : kv.1 ∉ header := h kv (List.mem_cons_self kv updates)
    show applyUpdates header (setCol header row kv.1 kv.2) updates = row
    rw [setCol_of_not_mem header row kv.1 kv.2 h1]
    exact ih row (fun kv' hkv' => h kv' (List.mem_cons_of_mem kv hkv'))

lemma pickLatest_foldl_spec (l : List ContactMessage)
    (acc : Option ContactMessage) (m : ContactMessage)
    (h : l.foldl pickLatestStep acc = some m) :
    (m ∈ l ∨ acc = some m) ∧ (∀ r ∈ l, r.timestamp ≤ m.timestamp) ∧
      (∀ a, acc = some a → a.timestamp ≤ m.timestamp) := by
  induction l generalizing acc with
  | nil =>
    simp only [List.foldl_nil] at h
    refine ⟨Or.inr h, by simp, ?_⟩
    intro a ha
    rw [h] at ha
    rw [Option.some.inj ha]
  | cons r l ih =>
    simp only [List.foldl_cons] at h
    rcases hacc : acc with _ | a
    · rw [hacc] at h
      simp only [pickLatestStep] at h
      obtain ⟨hmem, hmax, hstep⟩ := ih (some r) h
      refine ⟨?_, ?_, by simp [hacc]⟩
      · rcases hmem with hm | hm
        · exact Or.inl (List.mem_cons_of_mem r hm)
        · cases Option.some.inj hm
          exact Or.inl (List.mem_cons_self _ _)
      · intro r' hr'
        rcases List.mem_cons.mp hr' with hr' | hr'
        · rw [hr']; exact hstep r rfl
        · exact hmax r' hr'
    · rw [hacc] at h
      simp only [pickLatestStep] at h
      by_cases hgt : r.timestamp > a.timestamp
      · rw [if_pos hgt] at h
        obtain ⟨hmem, hmax, hstep⟩ := ih (some r) h
        refine ⟨?_, ?_, ?_⟩
        · rcases hmem with hm | hm
          · exact Or.inl (List.mem_cons_of_mem r hm)
          · cases Option.some.inj hm
            exact Or.inl (List.mem_cons_self _ _)
        · intro r' hr'
          rcases List.mem_cons.mp hr' with hr' | hr'
          · rw [hr']; exact hstep r rfl
          · exact hmax r' hr'
        · intro b hb
          cases Option.some.inj hb
          exact Nat.le_trans (Nat.le_of_lt hgt) (hstep r rfl)
      · rw [if_neg hgt] at h
        obtain ⟨hmem, hmax, hstep⟩ := ih (some a) h
        refine ⟨?_, ?_, ?_⟩
        · rcases hmem with hm | hm
          · exact Or.inl (List.mem_cons_of_mem r hm)
          · exact Or.inr hm
        · intro r' hr'
          rcases List.mem_cons.mp hr' with hr' | hr'
          · rw [hr']
            exact Nat.le_trans (Nat.le_of_not_lt hgt) (hstep a rfl)
          · exact hmax r' hr'
        · exact hstep

lemma latestUnreplied_spec (rows : List ContactMessage) (m : ContactMessage)
    (h : latestUnreplied rows = some m) :
    m ∈ unreplied rows ∧ ∀ r ∈ unreplied rows, r.timestamp ≤ m.timestamp := by
  obtain ⟨hmem, hmax, _⟩ := pickLatest_foldl_spec (unreplied rows) none m h
  refine ⟨?_, hmax⟩
  rcases hmem with hm | hm
  · exact hm
  · exact absurd hm (by simp)

lemma eq_of_pairwise_keyNe {α : Type} (key : α → Nat × String) (l : List α)
    (hpw : l.Pairwise (fun x y => key x ≠ key y)) {i : Nat} {a b : α}
    (ha : l.get? i = some a) (hb : b ∈ l) (hk : key a = key b) : a = b := by
  obtain ⟨j, hjlen, hbj⟩ := List.mem_iff_getElem.mp hb
  have hilen : i < l.length := (List.get?_eq_some.mp ha).1
  have hai : l[i] = a := by
    have := (List.get?_eq_some.mp ha).2
    simpa using this
  rcases Nat.lt_trichotomy i j with hij | hij | hij
  · have := (List.pairwise_iff_getElem.mp hpw) i j hilen hjlen hij
    rw [hai, hbj] at this
    exact absurd hk this
  · subst hij
    rw [← hai]
    exact hbj
  · have := (List.pairwise_iff_getElem.mp hpw) j i hjlen hilen hij
    rw [hai, hbj] at this
    exact absurd hk.symm this

/-! ## Claim theorems -/

/-- **C1, counterexample.**  The claim says a teacher whose class-list field
is empty (or missing) resolves to `reachable_classes` equal to the full set
of roster classes.  On the code this fails for the empty field: with the
class column present but equal to `""`, `teacher_classes` is the empty list
(lines 303-304), while the roster's class set is `["3-A"]`. -/
theorem teacher_empty_class_field_not_full_classes :
    teacherClasses (some "") demoStudents = [] ∧
      rosterClasses demoStudents = ["3-A"] := by
  decide

/-- **C1, amended.**  When the class column is *missing*, `teacher_classes`
is the full set of roster classes (lines 307-310); when the field is present
but *empty*, `teacher_classes` is the empty list, and the all-access
inversion is applied at the student level instead: the associated students
are the entire roster (lines 315-318). -/
theorem teacher_class_field_inversion (students : List Student) :
    teacherClasses none students = rosterClasses students ∧
      teacherClasses (some "") students = [] ∧
      associatedStudentsTeacher (teacherClasses (some "") students) students
        = students.map toAssociated :=
  ⟨rfl, rfl, rfl⟩

/-- **C7.**  A teacher whose class-list field is the empty string reaches
every student of the roster: the empty `teacher_classes` list makes the
associated-students computation keep the whole roster (lines 313-325). -/
theorem empty_class_field_reaches_every_student (students : List Student)
    (s : Student) (hs : s ∈ students) :
    toAssociated s ∈
      associatedStudentsTeacher (teacherClasses (some "") students) students := by
  have h : associatedStudentsTeacher (teacherClasses (some "") students) students
      = students.map toAssociated := rfl
  rw [h]
  exact List.mem_map_of_mem toAssociated hs

/-- **C7, witness.**  A student of class `"3-B"` is reached by a teacher
whose class field is `""`, on the concrete two-class roster. -/
theorem empty_class_field_reaches_every_student_witness :
    toAssociated ⟨"bob", "sheet_bob", "3-B", "pb@example.com"⟩ ∈
      associatedStudentsTeacher (teacherClasses (some "") demoRoster) demoRoster :=
  empty_class_field_reaches_every_student demoRoster
    ⟨"bob", "sheet_bob", "3-B", "pb@example.com"⟩ (by decide)

/-- **C8.**  Role resolution checks the teacher roster before the student
roster's `parent_email` column: an email matching a teacher row resolves to
the teacher role even when it also occurs as a parent email, and an email
matching neither roster resolves to the terminal unregistered error
(lines 294-350). -/
theorem resolve_roles (email : String) (teachers : List Teacher)
    (students : List Student) :
    ((∃ t ∈ teachers, t.email = email) →
      isTeacherOutcome (resolve email teachers students) = true) ∧
    ((∀ t ∈ teachers, t.email ≠ email) →
      (∀ s ∈ students, s.parent_email ≠ email) →
      resolve email teachers students = ResolveOutcome.unregistered) := by
  constructor
  · intro ht
    have hsome : (teachers.find? (fun t => t.email == email)).isSome := by
      rw [List.find?_isSome]
      obtain ⟨t, htm, hte⟩ := ht
      exact ⟨t, htm, by simpa using hte⟩
    obtain ⟨t, hfind⟩ := Option.isSome_iff_exists.mp hsome
    simp [resolve, hfind, isTeacherOutcome]
  · intro ht hs
    have hfind : teachers.find? (fun t => t.email == email) = none := by
      rw [List.find?_eq_none]
      intro t htm
      simpa using ht t htm
    have hany : students.any (fun s => s.parent_email == email) = false := by
      rw [List.any_eq_false]
      intro s hsm
      simpa using hs s hsm
    simp [resolve, hfind, hany]

/-- **C8, witness.**  On rosters where `"both@example.com"` occurs both as a
teacher email and as a parent email, resolution yields the teacher role; an
email in neither roster resolves to the unregistered error. -/
theorem resolve_roles_witness :
    isTeacherOutcome (resolve "both@example.com" demoTeachersBoth demoStudentsBoth)
        = true ∧
      resolve "nobody@example.com" demoTeachersBoth demoStudentsBoth
        = ResolveOutcome.unregistered :=
  ⟨(resolve_roles "both@example.com" demoTeachersBoth demoStudentsBoth).1
      (by decide),
   (resolve_roles "nobody@example.com" demoTeachersBoth demoStudentsBoth).2
      (by decide) (by decide)⟩

/-- **C6.**  A calendar event is kept for a viewer exactly when its
`target_classes` cell is empty, contains the sentinel `"全体"` among its
trimmed comma-separated tags, or one of the viewer's reachable classes
occurs among those tags (comparison is exact, hence case-sensitive); in
particular an event with empty `target_classes` is visible to every teacher
and every parent audience, and the parent filter agrees with the teacher
filter on the singleton class list (empty when the student's class cell is
empty, by Python truthiness). -/
theorem calendar_visibility_iff (x : String) (classes : List String)
    (c : String) :
    (keepEventTeacher x classes = true ↔ specKeepEvent x classes) ∧
      keepEventTeacher "" classes = true ∧
      keepEventParent "" c = true ∧
      keepEventParent x c = keepEventTeacher x (if c = "" then [] else [c]) := by
  refine ⟨?_, ?_, ?_, ?_⟩
  · simp [keepEventTeacher, specKeepEvent, List.any_eq_true, or_assoc]
  · simp [keepEventTeacher]
  · simp [keepEventParent]
  · by_cases hc : c = ""
    · simp [keepEventParent, keepEventTeacher, hc]
    · have hb : (c != "") = true := by simp [hc]
      simp [keepEventParent, keepEventTeacher, hb, hc]

/-- **C6, witness.**  The visibility equivalence evaluated at the event tag
string `"3-A, 全体"` for a teacher of class `"3-B"` (kept, via the
sentinel), and emptiness visible at a concrete audience. -/
theorem calendar_visibility_iff_witness :
    (keepEventTeacher "3-A, 全体" ["3-B"] = true ↔
        specKeepEvent "3-A, 全体" ["3-B"]) ∧
      keepEventTeacher "" ["3-B"] = true ∧
      keepEventParent "" "3-B" = true ∧
      keepEventParent "3-A, 全体" "3-B"
        = keepEventTeacher "3-A, 全体" (if "3-B" = "" then [] else ["3-B"]) :=
  calendar_visibility_iff "3-A, 全体" ["3-B"] "3-B"

/-- **C3.**  The parent detail view is independent of the `remarks` field
and renders no `"備考"` (remarks) entry: a non-empty remark is never
surfaced to a parent-role viewer, while the record itself still renders
(redaction, not removal).  The teacher view, by contrast, does render
remarks. -/
theorem parent_view_redacts_remarks (m : ContactMessage) (r : String) :
    displayedFieldsParent { m with remarks := r } = displayedFieldsParent m ∧
      "備考" ∉ (displayedFieldsParent m).map Prod.fst := by
  refine ⟨rfl, ?_⟩
  unfold displayedFieldsParent
  split_ifs <;>
    simp only [List.map_append, List.map_cons, List.map_nil, List.cons_append,
      List.nil_append] <;>
    decide

/-- **C3, witness.**  Evaluated at a concrete message carrying a non-empty
internal remark. -/
theorem parent_view_redacts_remarks_witness :
    displayedFieldsParent { demoMessage with remarks := "secret" }
        = displayedFieldsParent demoMessage ∧
      "備考" ∉ (displayedFieldsParent demoMessage).map Prod.fst :=
  parent_view_redacts_remarks demoMessage "secret"

/-- **C10.**  `update_row_in_sheet` writes only `field_map` keys that occur
in the header row: the call reports success unconditionally, a column whose
name is not among the keys keeps its cell, and a `field_map` whose keys all
miss the header leaves the row entirely unchanged (silently). -/
theorem update_row_frame (header row : List String)
    (updates : List (String × String)) :
    (update_row_in_sheet header row updates).2 = true ∧
      (∀ i name, header.get? i = some name → name ∉ updates.map Prod.fst →
        ((update_row_in_sheet header row updates).1).get? i = row.get? i) ∧
      ((∀ kv ∈ updates, kv.1 ∉ header) →
        (update_row_in_sheet header row updates).1 = row) := by
  refine ⟨rfl, ?_, ?_⟩
  · intro i name hi hn
    exact applyUpdates_get?_of_not_mem header updates row i name hi hn
  · intro h
    exact applyUpdates_of_disjoint header updates row h

/-- **C10, witness.**  A `field_map` with one header key and one absent key:
the call succeeds, the `message` column is untouched, and a fully absent
`field_map` leaves the row unchanged. -/
theorem update_row_frame_witness :
    (update_row_in_sheet contactHeader demoSheetRow [("ghost", "v")]).2 = true ∧
      ((update_row_in_sheet contactHeader demoSheetRow
          [("ghost", "v")]).1).get? 3 = demoSheetRow.get? 3 ∧
      (update_row_in_sheet contactHeader demoSheetRow [("ghost", "v")]).1
        = demoSheetRow := by
  obtain ⟨h1, h2, h3⟩ :=
    update_row_frame contactHeader demoSheetRow [("ghost", "v")]
  exact ⟨h1, h2 3 "message" (by decide) (by decide), h3 (by decide)⟩

/-- **C4, counterexample.**  The claim says a parent reply leaves every
field other than `home_reply` (and `read_state`) unchanged; but a reply with
an attached image also overwrites the `image_url` column (lines 1013-1015):
the cell changes from `"old.png"` to `"new.png"`. -/
theorem reply_mutates_image_url :
    ((update_row_in_sheet contactHeader demoSheetRow
        (replyFieldMap "ok!" "new.png")).1).get? 7 = some "new.png" ∧
      demoSheetRow.get? 7 = some "old.png" := by
  decide

/-- **C4, amended.**  A parent reply mutates only the `home_reply` column
and, when a reply image was uploaded, the `image_url` column; every other
column of the addressed row keeps its cell.  (The read-state feature is
removed in this revision, so no read-toggle mutation exists.) -/
theorem reply_frame (header row : List String) (reply image : String)
    (i : Nat) (name : String) (hi : header.get? i = some name)
    (h1 : name ≠ "home_reply") (h2 : name ≠ "image_url") :
    ((update_row_in_sheet header row (replyFieldMap reply image)).1).get? i
      = row.get? i := by
  apply applyUpdates_get?_of_not_mem header _ row i name hi
  unfold replyFieldMap
  by_cases himg : image ≠ ""
  · simp [himg, h1, h2]
  · simp [himg, h1]

/-- **C4, witness.**  The `message` column survives a concrete reply that
attaches an image. -/
theorem reply_frame_witness :
    ((update_row_in_sheet contactHeader demoSheetRow
        (replyFieldMap "ok!" "new.png")).1).get? 3 = demoSheetRow.get? 3 :=
  reply_frame contactHeader demoSheetRow "ok!" "new.png" 3 "message"
    (by decide) (by decide) (by decide)

/-- **C2, counterexample.**  The claim says a teacher with
`assigned_classes = {"3-A"}` sending an individual message to a student in
class `"3-B"` is rejected with `Forbidden`.  On the code, the attempt is
rejected — no write happens — but with the "sheet name not found" error of
lines 453-454, not with a `Forbidden` error (no such error exists in the
source): `bob` (class 3-B) is outside the associated students of the 3-A
teacher. -/
theorem send_outside_audience_not_forbidden :
    sendIndividual "bob" demoTeacherAssoc = SendOutcome.errSheetNotFound ∧
      sendIndividual "bob" demoTeacherAssoc ≠ SendOutcome.forbidden := by
  decide

/-- **C2, amended.**  A send to any target outside the offered options
(`"全体"` plus the teacher's in-audience student names) performs no write
and surfaces the sheet-not-found error; in particular an out-of-audience
student is not even offered as a target. -/
theorem send_outside_audience_rejected (target : String)
    (assoc : List AssociatedStudent) (h : target ∉ studentOptions assoc) :
    sendIndividual target assoc = SendOutcome.errSheetNotFound := by
  simp only [studentOptions, List.mem_cons, not_or] at h
  obtain ⟨hz, hn⟩ := h
  have hfind : assoc.find? (fun a => a.student_name == target) = none := by
    rw [List.find?_eq_none]
    intro a ham
    simp only [beq_iff_eq]
    intro hEq
    exact hn (hEq ▸ List.mem_map_of_mem AssociatedStudent.student_name ham)
  simp [sendIndividual, findSheetName, hfind, hz]

/-- **C2, witness.**  A target name absent from the teacher's audience is
rejected with the sheet-not-found error on the concrete 3-A audience. -/
theorem send_outside_audience_rejected_witness :
    sendIndividual "carol" demoTeacherAssoc = SendOutcome.errSheetNotFound :=
  send_outside_audience_rejected "carol" demoTeacherAssoc (by decide)

/-- **C5, counterexample.**  The claim says a parent toggling `read_state`
on a message with a different `student_id` receives `Forbidden`.  The
read-toggle handler (commented out in this revision, lines 944-959) only
ever sees the parent's own student's sheet; a message not in that log makes
it surface the record-not-found error, and no `Forbidden` error exists in
the source. -/
theorem toggle_other_student_not_forbidden :
    toggleRead demoReadLog 99 "other" = ToggleOutcome.recordNotFound ∧
      toggleRead demoReadLog 99 "other" ≠ ToggleOutcome.forbidden := by
  decide

/-- **C5, amended.**  In this revision the read-state feature is removed
(the handlers are commented out and the parent menu offers no toggle).  In
the commented-out handler: toggling a message whose `(timestamp, message)`
pair first matches a row of the parent's own student log marks exactly that
row `"既読"` (read), leaving all other rows unchanged; a message matching no
row of that log yields the record-not-found error, never `Forbidden`. -/
theorem toggle_read_behaviour (rows : List MessageWithRead) (ts : Nat)
    (msg : String) :
    ((∀ r ∈ rows, ¬(r.timestamp = ts ∧ r.message = msg)) →
      toggleRead rows ts msg = ToggleOutcome.recordNotFound) ∧
    (∀ i r, rows.get? i = some r → r.timestamp = ts → r.message = msg →
      (∀ j b, j < i → rows.get? j = some b →
        ¬(b.timestamp = ts ∧ b.message = msg)) →
      toggleRead rows ts msg = ToggleOutcome.updated (setRead rows i) ∧
        (setRead rows i).get? i = some { r with read_status := "既読" } ∧
        (∀ j, j ≠ i → (setRead rows i).get? j = rows.get? j)) := by
  constructor
  · intro h
    have hfind : firstIdx? (fun r => r.timestamp == ts && r.message == msg)
        rows = none := by
      rw [firstIdx?_eq_none]
      intro a ha
      simpa using h a ha
    simp [toggleRead, hfind]
  · intro i r hir hts hmsg hmin
    have hfind : firstIdx? (fun r => r.timestamp == ts && r.message == msg)
        rows = some i := by
      apply firstIdx?_eq_some_of _ rows i r hir (by simp [hts, hmsg])
      intro j b hji hjb
      simpa using hmin j b hji hjb
    refine ⟨by simp [toggleRead, hfind], ?_, ?_⟩
    · unfold setRead
      rw [updateAt_get?_self, hir]
      rfl
    · intro j hj
      exact updateAt_get?_ne _ rows i j hj

/-- **C5, witness.**  Toggling the parent's own unread message `(10,
"hello")` on the concrete one-row log marks it `"既読"`. -/
theorem toggle_read_behaviour_witness :
    toggleRead demoReadLog 10 "hello"
        = ToggleOutcome.updated (setRead demoReadLog 0) ∧
      (setRead demoReadLog 0).get? 0 = some ⟨10, "hello", "既読"⟩ ∧
      (∀ j, j ≠ 0 → (setRead demoReadLog 0).get? j = demoReadLog.get? j) :=
  (toggle_read_behaviour demoReadLog 10 "hello").2 0 ⟨10, "hello", "未読"⟩
    (by decide) rfl rfl
    (fun j b hji _ => absurd hji (Nat.not_lt_zero j))

/-- **C9, counterexample.**  The claim says the parent reply always updates
the most recent message with empty `home_reply` and never an already-replied
message.  On the code, the written row is the *first* row of the frame whose
`(timestamp, message)` pair matches the latest unreplied row (lines
1006-1012): on a log where an already-replied row shares that pair, the
reply overwrites the replied row (its reply `"done"` is lost) and the
actually-unreplied row stays untouched. -/
theorem reply_can_hit_replied_duplicate :
    replyTargetIdx demoLogDup = some 0 ∧
      (demoLogDup.get? 0).map ContactMessage.home_reply = some "done" ∧
      parentReply demoLogDup "ok" "" =
        [⟨5, "2024/05/01", "t-sensei", "hi", "ok", "", "", ""⟩,
         ⟨5, "2024/05/01", "t-sensei", "hi", "", "", "", ""⟩] := by
  decide

/-- **C9, amended.**  When the `(timestamp, message)` pairs of the log are
pairwise distinct, the reply flow updates exactly one row: the addressed row
is unreplied, carries the maximal timestamp among unreplied rows, receives
exactly the reply field map, and every other row is unchanged. -/
theorem reply_targets_latest_unreplied (rows : List ContactMessage)
    (hpw : rows.Pairwise
      (fun a b => (a.timestamp, a.message) ≠ (b.timestamp, b.message)))
    (i : Nat) (hi : replyTargetIdx rows = some i) :
    ∃ m, rows.get? i = some m ∧ pyStrip m.home_reply = "" ∧
      (∀ r ∈ rows, pyStrip r.home_reply = "" → r.timestamp ≤ m.timestamp) ∧
      (∀ reply image, (parentReply rows reply image).get? i
        = some (applyReply reply image m)) ∧
      (∀ reply image j, j ≠ i →
        (parentReply rows reply image).get? j = rows.get? j) := by
  rcases hlu : latestUnreplied rows with _ | m0
  · rw [replyTargetIdx, hlu] at hi
    cases hi
  · have hfirst : firstIdx?
        (fun r => r.timestamp == m0.timestamp && r.message == m0.message)
        rows = some i := by
      rw [replyTargetIdx, hlu] at hi
      exact hi
    obtain ⟨hm0mem, hm0max⟩ := latestUnreplied_spec rows m0 hlu
    have hm0rows : m0 ∈ rows := (List.mem_filter.mp hm0mem).1
    have hm0un : pyStrip m0.home_reply = "" := by
      have := (List.mem_filter.mp hm0mem).2
      simpa using this
    obtain ⟨a, hai, hpa⟩ := firstIdx?_some_spec _ rows i hfirst
    have hpa' : a.timestamp = m0.timestamp ∧ a.message = m0.message := by
      simpa using hpa
    have ham0 : a = m0 :=
      eq_of_pairwise_keyNe (fun r => (r.timestamp, r.message)) rows hpw hai
        hm0rows (by simp [hpa'.1, hpa'.2])
    have hai' : rows.get? i = some m0 := ham0 ▸ hai
    have hpr : ∀ reply image, parentReply rows reply image
        = updateAt (applyReply reply image) rows i := by
      intro reply image
      rw [parentReply, hi]
    refine ⟨m0, hai', hm0un, ?_, ?_, ?_⟩
    · intro r hr hrun
      exact hm0max r (List.mem_filter.mpr ⟨hr, by simpa using hrun⟩)
    · intro reply image
      rw [hpr reply image, updateAt_get?_self, hai']
      rfl
    · intro reply image j hj
      rw [hpr reply image]
      exact updateAt_get?_ne _ rows i j hj

/-- **C9, witness.**  On a two-row log with distinct timestamps, the reply
addresses index 1, the unreplied row of maximal timestamp. -/
theorem reply_targets_latest_unreplied_witness :
    demoLogPlain.Pairwise
        (fun a b => (a.timestamp, a.message) ≠ (b.timestamp, b.message)) ∧
      ∃ m, demoLogPlain.get? 1 = some m ∧ pyStrip m.home_reply = "" ∧
        (∀ r ∈ demoLogPlain,
          pyStrip r.home_reply = "" → r.timestamp ≤ m.timestamp) ∧
        (∀ reply image, (parentReply demoLogPlain reply image).get? 1
          = some (applyReply reply image m)) ∧
        (∀ reply image j, j ≠ 1 →
          (parentReply demoLogPlain reply image).get? j
            = demoLogPlain.get? j) :=
  ⟨by decide,
   reply_targets_latest_unreplied demoLogPlain (by decide) 1 (by decide)⟩

end Renraku
